import Mathlib

/-!
Verification of the Pandora alignment monthly/daily report core (`app.py`).

The pipeline embedded here follows the source:
* record parsing: lines after the second dash-separator are trimmed,
  blank lines dropped, the rest split on whitespace runs;
* schema detection and typed loading: 8-column vs 12-column layout is
  chosen from the first data row; numeric and timestamp tokens coerce to
  `none` on failure (`errors='coerce'`); for the 12-column layout a
  combined weighting factor is the mean of the two per-instrument ones;
* quality classification: a record is a good scan iff its weighting
  factor strictly exceeds the mean of all non-null weighting factors;
* temporal aggregation: good-scan percentages grouped by (year, month)
  and, over a date-range filter, by calendar date.

Null floats (pandas `NaN`) and null timestamps (`NaT`) are modelled as
`Option` values; pandas comparison/arithmetic semantics on `NaN`
(propagation in arithmetic, `False` in comparisons) are modelled
explicitly at each use site, following the source expressions.
-/

/-- A parsed UT timestamp: calendar date plus a time-of-day in seconds.
Models a pandas `Timestamp` to the granularity the program uses
(`dt.year`, `dt.month`, `dt.date`, and ordering for `min`/`max`). -/
structure Timestamp where
  year : Int
  month : Int
  day : Int
  tod : Int
deriving DecidableEq, Repr

/-- A calendar date (what pandas `Series.dt.date` yields per element). -/
structure Date where
  year : Int
  month : Int
  day : Int
deriving DecidableEq, Repr

/-- The calendar date of a timestamp (`Timestamp.date()` in pandas). -/
def Timestamp.date (t : Timestamp) : Date := ⟨t.year, t.month, t.day⟩

/-- Chronological order on calendar dates (lexicographic on year, month, day). -/
def dateLE (a b : Date) : Prop :=
  a.year < b.year ∨ (a.year = b.year ∧
    (a.month < b.month ∨ (a.month = b.month ∧ a.day ≤ b.day)))

instance : DecidableRel dateLE := fun a b =>
  decidable_of_iff (a.year < b.year ∨ (a.year = b.year ∧
    (a.month < b.month ∨ (a.month = b.month ∧ a.day ≤ b.day)))) Iff.rfl

instance : IsTotal Date dateLE :=
  ⟨fun a b => by unfold dateLE; omega⟩

instance : IsTrans Date dateLE :=
  ⟨fun a b c hab hbc => by unfold dateLE at *; omega⟩

/-- Chronological order on timestamps (lexicographic, date first). -/
def tsLE (a b : Timestamp) : Prop :=
  a.year < b.year ∨ (a.year = b.year ∧
    (a.month < b.month ∨ (a.month = b.month ∧
      (a.day < b.day ∨ (a.day = b.day ∧ a.tod ≤ b.tod)))))

instance : DecidableRel tsLE := fun a b =>
  decidable_of_iff (a.year < b.year ∨ (a.year = b.year ∧
    (a.month < b.month ∨ (a.month = b.month ∧
      (a.day < b.day ∨ (a.day = b.day ∧ a.tod ≤ b.tod)))))) Iff.rfl

instance : IsTotal Timestamp tsLE :=
  ⟨fun a b => by unfold tsLE; omega⟩

instance : IsTrans Timestamp tsLE :=
  ⟨fun a b c hab hbc => by unfold tsLE at *; omega⟩

/-- Chronological order on (year, month) group keys. -/
def ymLE (a b : Int × Int) : Prop :=
  a.1 < b.1 ∨ (a.1 = b.1 ∧ a.2 ≤ b.2)

instance : DecidableRel ymLE := fun a b =>
  decidable_of_iff (a.1 < b.1 ∨ (a.1 = b.1 ∧ a.2 ≤ b.2)) Iff.rfl

instance : IsTotal (Int × Int) ymLE :=
  ⟨fun a b => by unfold ymLE; omega⟩

instance : IsTrans (Int × Int) ymLE :=
  ⟨fun a b c hab hbc => by unfold ymLE at *; omega⟩

/-! ## Record Parser (`app.py` lines 15–27) -/

/-- Does `cs` start with `pat`? -/
def charsStartWith : List Char → List Char → Bool
  | [], _ => true
  | _ :: _, [] => false
  | p :: ps, c :: cs => p == c && charsStartWith ps cs

/-- Does `cs` contain `pat` as a contiguous substring? -/
def hasSubstr (pat : List Char) : List Char → Bool
  | [] => charsStartWith pat []
  | c :: cs => charsStartWith pat (c :: cs) || hasSubstr pat cs

/-- A separator line: the source tests `"----------------" in line`
(a run of sixteen dashes occurring anywhere in the line). -/
def isSep (line : String) : Bool :=
  hasSubstr "----------------".data line.data

/-- Remove leading and trailing whitespace from a character list. -/
def trimChars (cs : List Char) : List Char :=
  ((cs.dropWhile Char.isWhitespace).reverse.dropWhile Char.isWhitespace).reverse

/-- Python `str.strip()`: the string without surrounding whitespace. -/
def pyStrip (s : String) : String :=
  ⟨trimChars s.data⟩

/-- The parser loop: `c` is `separator_count`.  A separator line bumps the
count and is skipped (`continue`); other lines are collected (stripped)
exactly while the count equals two. -/
def collectData : Nat → List String → List String
  | _, [] => []
  | c, l :: ls =>
    if isSep l then collectData (c + 1) ls
    else if c = 2 then pyStrip l :: collectData c ls
    else collectData c ls

/-- `data_lines` of the source: stripped lines collected after the second
separator. -/
def data_lines (lines : List String) : List String :=
  collectData 0 lines

/-- Word accumulator for whitespace splitting: `acc` holds the current
word reversed; whitespace flushes it. -/
def wordsAux : List Char → List Char → List (List Char)
  | acc, [] => if acc = [] then [] else [acc.reverse]
  | acc, c :: cs =>
    if c.isWhitespace then
      if acc = [] then wordsAux [] cs else acc.reverse :: wordsAux [] cs
    else wordsAux (c :: acc) cs

/-- Python `str.split()` with no argument: split on runs of whitespace,
dropping empty pieces. -/
def pySplit (s : String) : List String :=
  (wordsAux [] s.data).map (fun w => ⟨w⟩)

/-- `data` of the source: non-blank stripped data lines, each split into
whitespace-separated tokens. -/
def parse_data (lines : List String) : List (List String) :=
  ((data_lines lines).filter (fun l => l ≠ "")).map pySplit

/-- Drop lines up to and including the first separator line. -/
def dropThroughSep : List String → List String
  | [] => []
  | l :: ls => if isSep l then ls else dropThroughSep ls

/-- The spec's stated parser contract, for comparison with `parse_data`:
every line after the second separator, up to end of file, is a data line;
data lines are stripped, blanks dropped, the rest split on whitespace. -/
def spec_parse_data (lines : List String) : List (List String) :=
  (((dropThroughSep (dropThroughSep lines)).map pyStrip).filter
    (fun l => l ≠ "")).map pySplit

/-- The amended parser contract: the data region is the lines strictly
between the second and the third separator markers (to end of file when
no third separator occurs), stripped, blanks dropped, split on
whitespace. -/
def amended_parse_data (lines : List String) : List (List String) :=
  ((((dropThroughSep (dropThroughSep lines)).takeWhile
      (fun l => !(isSep l))).map pyStrip).filter (fun l => l ≠ "")).map pySplit

/-! ## Typed loader (`app.py` lines 29–83) -/

/-- Accumulate the value of exactly `n` decimal digits, or fail. -/
def readDigits : Nat → Nat → List Char → Option (Nat × List Char)
  | 0, acc, cs => some (acc, cs)
  | _ + 1, _, [] => none
  | n + 1, acc, c :: cs =>
    if c.isDigit then readDigits n (acc * 10 + (c.toNat - 48)) cs else none

/-- Consume one expected character, or fail. -/
def expectChar (c : Char) : List Char → Option (List Char)
  | [] => none
  | x :: xs => if x = c then some xs else none

/-- The digit-run value of `cs`, or `none` when a non-digit occurs.
An empty list yields `some 0` (callers guard emptiness where needed). -/
def digitsVal (cs : List Char) : Option Nat :=
  cs.foldl (fun acc c =>
    match acc with
    | none => none
    | some n => if c.isDigit then some (n * 10 + (c.toNat - 48)) else none)
    (some 0)

/-- Model of `pd.to_numeric(·, errors='coerce')` on one token: an
optionally signed decimal numeral, `none` on any parse failure. -/
def to_numeric (s : String) : Option ℚ :=
  let cs := trimChars s.data
  let sgn : ℚ := match cs with
    | '-' :: _ => -1
    | _ => 1
  let body := match cs with
    | '-' :: rest => rest
    | '+' :: rest => rest
    | _ => cs
  if body = [] then none
  else
    let intPart := body.takeWhile (fun c => c ≠ '.')
    match body.dropWhile (fun c => c ≠ '.') with
    | [] =>
      match digitsVal intPart with
      | some n => some (sgn * n)
      | none => none
    | _ :: frac =>
      if intPart = [] ∧ frac = [] then none
      else
        match digitsVal intPart, digitsVal frac with
        | some a, some b => some (sgn * (a + b / 10 ^ frac.length))
        | _, _ => none

/-- Model of `pd.to_datetime(·, errors='coerce')` on one token,
restricted to the ISO-8601 forms the log files use
(`YYYY-MM-DD`, optionally followed by `T` or a space and `HH:MM:SS`);
any failure yields `none` (pandas `NaT`). -/
def to_datetime (s : String) : Option Timestamp := do
  let cs := trimChars s.data
  let (y, cs) ← readDigits 4 0 cs
  let cs ← expectChar '-' cs
  let (mo, cs) ← readDigits 2 0 cs
  let cs ← expectChar '-' cs
  let (d, cs) ← readDigits 2 0 cs
  match cs with
  | [] => pure ⟨(y : Int), (mo : Int), (d : Int), 0⟩
  | c :: cs1 =>
    if c = 'T' ∨ c = ' ' then do
      let (h, cs2) ← readDigits 2 0 cs1
      let cs2 ← expectChar ':' cs2
      let (mi, cs2) ← readDigits 2 0 cs2
      let cs2 ← expectChar ':' cs2
      let (sec, cs2) ← readDigits 2 0 cs2
      if cs2 = [] then
        pure ⟨(y : Int), (mo : Int), (d : Int), (h : Int) * 3600 + (mi : Int) * 60 + (sec : Int)⟩
      else none
    else none

/-- One typed row of the record table, keeping the columns the
aggregation core reads: the parsed timestamp and the (possibly combined)
weighting factor.  `none` models pandas `NaN`/`NaT`. -/
structure Record where
  timestamp : Option Timestamp
  weighting_factor : Option ℚ
deriving DecidableEq, Repr

/-- Token `i` of a row; `none` models the `NaN` padding that
`pd.DataFrame` applies to rows shorter than the column list. -/
def getTok (row : List String) (i : Nat) : Option String :=
  row[i]?

/-- Typed row for the 8-column layout: token 0 is the timestamp, token 7
the weighting factor; a missing (padded) token stays null. -/
def loadRow8 (row : List String) : Record :=
  { timestamp := (getTok row 0).bind to_datetime
    weighting_factor := (getTok row 7).bind to_numeric }

/-- The combined weighting factor of the 12-column layout:
`(wf_spec1 + wf_spec2) / 2` with pandas `NaN` propagation — if either
operand is null the result is null. -/
def combineWF (a b : Option ℚ) : Option ℚ :=
  match a, b with
  | some x, some y => some ((x + y) / 2)
  | _, _ => none

/-- Typed row for the 12-column layout: tokens 7 and 11 are the two
per-instrument weighting factors, averaged into one. -/
def loadRow12 (row : List String) : Record :=
  { timestamp := (getTok row 0).bind to_datetime
    weighting_factor :=
      combineWF ((getTok row 7).bind to_numeric) ((getTok row 11).bind to_numeric) }

/-- The fatal conditions of the app: `noData` is the
`"No data found in the file."` branch, `formatNotRecognized` the
`"File format not recognized."` branch (followed by `st.stop()`), and
`dataFrameError` the `ValueError` that `pd.DataFrame(data, columns=...)`
raises when some row has more tokens than there are column names. -/
inductive AppError where
  | noData
  | formatNotRecognized
  | dataFrameError
deriving DecidableEq, Repr

/-- The load stage (`app.py` lines 29–83): empty data is fatal; the
schema is chosen from the token count of the first row alone;
`pd.DataFrame` raises if a row is longer than the column list and pads
shorter rows with `NaN`; otherwise every row is typed positionally. -/
def load_table (data : List (List String)) : Except AppError (List Record) :=
  match data with
  | [] => .error .noData
  | first :: rest =>
    if first.length = 8 then
      if (first :: rest).any (fun row => 8 < row.length) then .error .dataFrameError
      else .ok ((first :: rest).map loadRow8)
    else if first.length = 12 then
      if (first :: rest).any (fun row => 12 < row.length) then .error .dataFrameError
      else .ok ((first :: rest).map loadRow12)
    else .error .formatNotRecognized

/-- The whole ingestion front end: raw lines to the typed record table,
or a fatal error. -/
def run_app (lines : List String) : Except AppError (List Record) :=
  load_table (parse_data lines)

/-! ## Quality Classifier (`app.py` lines 86–87) -/

/-- `df["Weighting factor"].mean()`: pandas skips `NaN` in both the sum
and the count; the mean of an all-null (or empty) column is `NaN`,
modelled as `none`. -/
def average_weighting_factor (rs : List Record) : Option ℚ :=
  let vs := rs.filterMap Record.weighting_factor
  if vs = [] then none else some (vs.sum / vs.length)

/-- `wf > avg` under pandas comparison semantics: any comparison
involving `NaN` is `False`. -/
def good_scan (wf avg : Option ℚ) : Bool :=
  match wf, avg with
  | some w, some a => decide (a < w)
  | _, _ => false

/-- The `"Good Scan"` flag of a record of table `rs`. -/
def recordGood (rs : List Record) (r : Record) : Bool :=
  good_scan r.weighting_factor (average_weighting_factor rs)

/-! ## Temporal Aggregator (`app.py` lines 90–96 and 151–160) -/

/-- The (year, month) group key of a record; null timestamps give a null
key, which `groupby` drops. -/
def monthKey (r : Record) : Option (Int × Int) :=
  r.timestamp.map (fun t => (t.year, t.month))

/-- The distinct non-null (year, month) keys, in the ascending key order
`groupby(sort=True)` emits. -/
def monthlyKeys (rs : List Record) : List (Int × Int) :=
  List.insertionSort ymLE (rs.filterMap monthKey).dedup

/-- The rows of `rs` grouped under (year, month) key `k`. -/
def monthGroup (rs : List Record) (k : Int × Int) : List Record :=
  rs.filter (fun r => monthKey r == some k)

/-- `mean of the boolean "Good Scan" column × 100` over a group `g`,
with the flags classified against the whole table `rs`. -/
def percentGood (rs g : List Record) : ℚ :=
  ((g.countP (recordGood rs) : ℚ) / (g.length : ℚ)) * 100

/-- `monthly_report` of the source:
`df.groupby(["Year", "Month"])["Good Scan"].mean() * 100` — one row per
non-null (year, month) key in ascending key order, valued by the
good-scan percentage of the group. -/
def monthly_report (rs : List Record) : List ((Int × Int) × ℚ) :=
  (monthlyKeys rs).map (fun k => (k, percentGood rs (monthGroup rs k)))

/-- The calendar-date key of a record (`dt.date`); null for `NaT`. -/
def dateKey (r : Record) : Option Date :=
  r.timestamp.map Timestamp.date

/-- The date-range filter mask of one record:
`(ts.dt.date >= start) & (ts.dt.date <= end)`, `False` on a null
timestamp (comparisons with `NaT` are `False`). -/
def inRange (s e : Date) (r : Record) : Bool :=
  match r.timestamp with
  | some t => decide (dateLE s t.date) && decide (dateLE t.date e)
  | none => false

/-- `df_filtered` of the source: the records whose calendar date lies in
the inclusive range. -/
def df_filtered (rs : List Record) (s e : Date) : List Record :=
  rs.filter (inRange s e)

/-- The distinct date keys of a filtered table, ascending. -/
def dailyKeys (f : List Record) : List Date :=
  List.insertionSort dateLE (f.filterMap dateKey).dedup

/-- The rows of `f` grouped under calendar date `d`. -/
def dateGroup (f : List Record) (d : Date) : List Record :=
  f.filter (fun r => dateKey r == some d)

/-- `daily_report` of the source: `none` is the
`"No data found for the selected date range."` empty state
(`df_filtered.empty`); otherwise one row per date in the filtered set, in
ascending date order, valued by the good-scan percentage of its group
(flags still classified against the full table). -/
def daily_report (rs : List Record) (s e : Date) : Option (List (Date × ℚ)) :=
  let f := df_filtered rs s e
  if f = [] then none
  else some ((dailyKeys f).map (fun d => (d, percentGood rs (dateGroup f d))))

/-- Minimum of a timestamp list (`Series.min()` skips `NaT` — callers
pass the non-null timestamps). -/
def tsListMin : List Timestamp → Option Timestamp
  | [] => none
  | t :: ts => some (ts.foldl (fun a b => if tsLE a b then a else b) t)

/-- Maximum of a timestamp list. -/
def tsListMax : List Timestamp → Option Timestamp
  | [] => none
  | t :: ts => some (ts.foldl (fun a b => if tsLE b a then a else b) t)

/-- `min_date` of the source: `df[ts].min().date()`, `none` when every
timestamp is null. -/
def min_date (rs : List Record) : Option Date :=
  (tsListMin (rs.filterMap Record.timestamp)).map Timestamp.date

/-- `max_date` of the source: `df[ts].max().date()`. -/
def max_date (rs : List Record) : Option Date :=
  (tsListMax (rs.filterMap Record.timestamp)).map Timestamp.date

/-- A small concrete table used to instantiate the aggregation claims:
three January 2024 records whose weighting factors 4, 1, 1 classify as
good, not good, not good against their mean 2. -/
def sampleTable : List Record :=
  [⟨some ⟨2024, 1, 1, 0⟩, some 4⟩, ⟨some ⟨2024, 1, 2, 0⟩, some 1⟩,
   ⟨some ⟨2024, 1, 3, 0⟩, some 1⟩]

/-- A concrete table whose non-null weighting factors are all equal. -/
def constTable : List Record :=
  [⟨some ⟨2024, 1, 1, 0⟩, some 5⟩, ⟨some ⟨2024, 1, 2, 0⟩, none⟩]

/-! ## Classifier facts (claims about `app.py` lines 86–87) -/

/-- Summing `getD 0` over all records equals summing the non-null
weighting factors: a null contributes nothing to the sum. -/
theorem sum_wf_getD (rs : List Record) :
    (rs.map (fun r => r.weighting_factor.getD 0)).sum =
      (rs.filterMap Record.weighting_factor).sum := by
  induction rs with
  | nil => rfl
  | cons r rs ih =>
    cases h : r.weighting_factor <;> simp [List.filterMap_cons, h, ih]

/-- Counting records with a non-null weighting factor equals the length
of the non-null weighting-factor list. -/
theorem countP_wf_isSome (rs : List Record) :
    rs.countP (fun r => r.weighting_factor.isSome) =
      (rs.filterMap Record.weighting_factor).length := by
  induction rs with
  | nil => rfl
  | cons r rs ih =>
    cases h : r.weighting_factor <;>
      simp [List.countP_cons, List.filterMap_cons, h, ih]

/-- C2: `average_weighting_factor` is the arithmetic mean of the
non-null weighting factors only — nulls are excluded from both the sum
and the count — and the `[10, null, 20]` table has mean `15`. -/
theorem C2_average_weighting_factor_mean (rs : List Record)
    (h : rs.countP (fun r => r.weighting_factor.isSome) ≠ 0) :
    average_weighting_factor rs =
      some ((rs.map (fun r => r.weighting_factor.getD 0)).sum /
        (rs.countP (fun r => r.weighting_factor.isSome) : ℚ)) ∧
    average_weighting_factor [⟨none, some 10⟩, ⟨none, none⟩, ⟨none, some 20⟩] =
      some 15 := by
  constructor
  · have hne : rs.filterMap Record.weighting_factor ≠ [] := by
      intro hnil
      rw [countP_wf_isSome, hnil] at h
      exact h rfl
    simp only [average_weighting_factor]
    rw [sum_wf_getD, countP_wf_isSome, if_neg hne]
  · simp [average_weighting_factor, List.filterMap_cons]
    norm_num

/-- Witness for C2 at the table `[10, null, 20]`. -/
theorem C2_witness :
    average_weighting_factor
        ([⟨none, some 10⟩, ⟨none, none⟩, ⟨none, some 20⟩] : List Record) =
      some ((([⟨none, some 10⟩, ⟨none, none⟩, ⟨none, some 20⟩] : List Record).map
          (fun r => r.weighting_factor.getD 0)).sum /
        (([⟨none, some 10⟩, ⟨none, none⟩, ⟨none, some 20⟩] : List Record).countP
          (fun r => r.weighting_factor.isSome) : ℚ)) :=
  (C2_average_weighting_factor_mean _ (by decide)).1

/-- C3: a record with a null weighting factor is classified as not good
(never excluded), whatever the mean is; and when every weighting factor
is null the mean is null, every record classifies as not good, and the
computation is total (no error). -/
theorem C3_null_wf_not_good (rs : List Record) :
    (∀ r ∈ rs, r.weighting_factor = none → recordGood rs r = false) ∧
    ((∀ r ∈ rs, r.weighting_factor = none) →
      average_weighting_factor rs = none ∧
        ∀ r ∈ rs, recordGood rs r = false) := by
  constructor
  · intro r _ hw
    cases havg : average_weighting_factor rs <;>
      simp [recordGood, good_scan, hw, havg]
  · intro hall
    have hnil : rs.filterMap Record.weighting_factor = [] := by
      rw [List.filterMap_eq_nil_iff]
      exact hall
    constructor
    · simp [average_weighting_factor, hnil]
    · intro r hr
      cases havg : average_weighting_factor rs <;>
        simp [recordGood, good_scan, hall r hr, havg]

/-- Witness for C3: a null-weighted record among non-null ones is not
good, and a fully null table has a null mean and a not-good record. -/
theorem C3_witness :
    recordGood [⟨none, none⟩, ⟨none, some 5⟩] ⟨none, none⟩ = false ∧
    average_weighting_factor ([⟨none, none⟩] : List Record) = none ∧
    recordGood [⟨none, none⟩] ⟨none, none⟩ = false :=
  ⟨(C3_null_wf_not_good [⟨none, none⟩, ⟨none, some 5⟩]).1 ⟨none, none⟩ (by decide) rfl,
   ((C3_null_wf_not_good [⟨none, none⟩]).2 (by decide)).1,
   ((C3_null_wf_not_good [⟨none, none⟩]).2 (by decide)).2 ⟨none, none⟩ (by decide)⟩

/-- C4: the combined weighting factor of a 12-token row is the mean of
the two per-instrument factors (30 and 10 give 20), and it is null as
soon as either side is null — a null is never read as zero. -/
theorem C4_combined_weighting_factor (row : List String) (w1 w2 : Option ℚ)
    (x y : ℚ) (h : w1 = none ∨ w2 = none) :
    (loadRow12 row).weighting_factor =
      combineWF ((getTok row 7).bind to_numeric) ((getTok row 11).bind to_numeric) ∧
    combineWF (some x) (some y) = some ((x + y) / 2) ∧
    combineWF w1 w2 = none ∧
    combineWF (some 30) (some 10) = some 20 := by
  refine ⟨rfl, rfl, ?_, by norm_num [combineWF]⟩
  rcases h with h | h
  · subst h; cases w2 <;> rfl
  · subst h; cases w1 <;> rfl

/-- Witness for C4 at a null first instrument and the 30/10 example. -/
theorem C4_witness :
    (loadRow12 []).weighting_factor =
      combineWF ((getTok [] 7).bind to_numeric) ((getTok [] 11).bind to_numeric) ∧
    combineWF (some 30) (some 10) = some ((30 + 10) / 2) ∧
    combineWF none (some 1) = none ∧
    combineWF (some 30) (some 10) = some 20 :=
  C4_combined_weighting_factor [] none (some 1) 30 10 (Or.inl rfl)

/-! ## Record Parser facts (claims about `app.py` lines 15–27) -/

/-- Collection is over for good once the separator count reaches three. -/
theorem collectData_of_three_le (c : Nat) (h : 3 ≤ c) :
    ∀ lines : List String, collectData c lines = [] := by
  intro lines
  induction lines generalizing c with
  | nil => rfl
  | cons l ls ih =>
    by_cases hs : isSep l = true
    · simp [collectData, hs, ih (c + 1) (by omega)]
    · have hc : c ≠ 2 := by omega
      simp [collectData, hs, hc, ih c h]

/-- Before the first separator the loop only waits for it. -/
theorem collectData_zero (lines : List String) :
    collectData 0 lines = collectData 1 (dropThroughSep lines) := by
  induction lines with
  | nil => rfl
  | cons l ls ih =>
    by_cases hs : isSep l = true
    · simp [collectData, dropThroughSep, hs]
    · simp [collectData, dropThroughSep, hs, ih]

/-- Between the first and second separators the loop still only waits. -/
theorem collectData_one (lines : List String) :
    collectData 1 lines = collectData 2 (dropThroughSep lines) := by
  induction lines with
  | nil => rfl
  | cons l ls ih =>
    by_cases hs : isSep l = true
    · simp [collectData, dropThroughSep, hs]
    · simp [collectData, dropThroughSep, hs, ih]

/-- With the count at two, the loop strips and collects lines exactly up
to the next separator. -/
theorem collectData_two (lines : List String) :
    collectData 2 lines =
      (lines.takeWhile (fun l => !(isSep l))).map pyStrip := by
  induction lines with
  | nil => rfl
  | cons l ls ih =>
    by_cases hs : isSep l = true
    · simp [collectData, List.takeWhile_cons, hs,
        collectData_of_three_le 3 (by omega)]
    · simp [collectData, List.takeWhile_cons, hs, ih]

/-- C5 counterexample: on a file with a third separator line inside the
data region, the code stops collecting at that third separator, while
the claimed contract retains every later line up to end of file — the
code yields `[["a"]]`, the claimed reading also keeps the line `"b"`. -/
theorem C5_counterexample :
    parse_data ["----------------", "----------------", "a", "----------------", "b"] =
      [["a"]] ∧
    spec_parse_data ["----------------", "----------------", "a", "----------------", "b"] =
      [["a"], ["----------------"], ["b"]] ∧
    parse_data ["----------------", "----------------", "a", "----------------", "b"] ≠
      spec_parse_data ["----------------", "----------------", "a", "----------------", "b"] :=
  ⟨by decide, by decide, by decide⟩

/-- C5 (amended): the parser retains exactly the lines strictly between
the second and third separator markers (to end of file when no third
occurs) that are non-blank after trimming, splits each on runs of
whitespace, and outputs the token-sequences in original file order. -/
theorem C5_parser_amended (lines : List String) :
    parse_data lines = amended_parse_data lines := by
  unfold parse_data amended_parse_data data_lines
  rw [collectData_zero, collectData_one, collectData_two]

/-! ## Fatal-error and schema-detection facts (`app.py` lines 29–77) -/

/-- C6: zero data lines and an unrecognized first-line token count are
two distinct fatal outcomes, and in either case the pipeline produces no
record table — hence no monthly or daily results. -/
theorem C6_fatal_errors (lines : List String) (first : List String)
    (rest : List (List String)) :
    (parse_data lines = [] → run_app lines = .error .noData) ∧
    (parse_data lines = first :: rest → first.length ≠ 8 → first.length ≠ 12 →
      run_app lines = .error .formatNotRecognized) ∧
    AppError.noData ≠ AppError.formatNotRecognized := by
  refine ⟨?_, ?_, by decide⟩
  · intro h
    unfold run_app
    rw [h]
    rfl
  · intro h h8 h12
    unfold run_app
    rw [h]
    simp [load_table, h8, h12]

/-- Witness for C6: a file with no data lines errors with `noData`, a
file whose first data line has three tokens errors with
`formatNotRecognized`. -/
theorem C6_witness :
    run_app ["----------------", "----------------"] = .error .noData ∧
    run_app ["----------------", "----------------", "a b c"] =
      .error .formatNotRecognized ∧
    AppError.noData ≠ AppError.formatNotRecognized :=
  ⟨(C6_fatal_errors ["----------------", "----------------"] [] []).1 (by decide),
   (C6_fatal_errors ["----------------", "----------------", "a b c"]
      ["a", "b", "c"] []).2.1 (by decide) (by decide) (by decide),
   (C6_fatal_errors [] [] []).2.2⟩

/-- C8 counterexample: with an 8-token first line and a 12-token second
line, the `pd.DataFrame` construction raises (more tokens than column
names) instead of completing with a misaligned table. -/
theorem C8_counterexample :
    load_table [["2024-01-01", "A", "1", "2", "3", "4", "5", "6"],
        ["2024-01-01", "A", "1", "2", "3", "4", "5", "6", "7", "8", "9", "10"]] =
      .error .dataFrameError ∧
    ¬ ∃ t, load_table [["2024-01-01", "A", "1", "2", "3", "4", "5", "6"],
        ["2024-01-01", "A", "1", "2", "3", "4", "5", "6", "7", "8", "9", "10"]] =
      .ok t := by
  refine ⟨rfl, ?_⟩
  rintro ⟨t, ht⟩
  rw [show load_table [["2024-01-01", "A", "1", "2", "3", "4", "5", "6"],
        ["2024-01-01", "A", "1", "2", "3", "4", "5", "6", "7", "8", "9", "10"]] =
      .error .dataFrameError from rfl] at ht
  exact Except.noConfusion ht

/-- C8 (amended): the schema is chosen from the first data line's token
count alone; later lines with at most that many tokens load without
error into a misaligned, null-padded table typed by the first line's
layout, while a later line with more tokens makes the `pd.DataFrame`
construction raise. -/
theorem C8_schema_first_line (first : List String) (rest : List (List String)) :
    (first.length = 8 →
      ((∀ row ∈ rest, row.length ≤ 8) →
        load_table (first :: rest) = .ok ((first :: rest).map loadRow8)) ∧
      ((∃ row ∈ rest, 8 < row.length) →
        load_table (first :: rest) = .error .dataFrameError)) ∧
    (first.length = 12 →
      ((∀ row ∈ rest, row.length ≤ 12) →
        load_table (first :: rest) = .ok ((first :: rest).map loadRow12)) ∧
      ((∃ row ∈ rest, 12 < row.length) →
        load_table (first :: rest) = .error .dataFrameError)) := by
  constructor
  · intro h8
    constructor
    · intro hall
      have hany : ((first :: rest).any (fun row => 8 < row.length)) = false := by
        rw [List.any_eq_false]
        intro row hrow
        simp only [decide_eq_true_eq]
        rcases List.mem_cons.mp hrow with h | h
        · subst h; omega
        · exact Nat.not_lt.mpr (hall row h)
      simp [load_table, h8, hany]
    · intro hex
      have hany : ((first :: rest).any (fun row => 8 < row.length)) = true := by
        rw [List.any_eq_true]
        obtain ⟨row, hrow, hlen⟩ := hex
        exact ⟨row, List.mem_cons_of_mem _ hrow, by simpa using hlen⟩
      simp [load_table, h8, hany]
  · intro h12
    constructor
    · intro hall
      have hany : ((first :: rest).any (fun row => 12 < row.length)) = false := by
        rw [List.any_eq_false]
        intro row hrow
        simp only [decide_eq_true_eq]
        rcases List.mem_cons.mp hrow with h | h
        · subst h; omega
        · exact Nat.not_lt.mpr (hall row h)
      simp [load_table, h12, hany]
    · intro hex
      have hany : ((first :: rest).any (fun row => 12 < row.length)) = true := by
        rw [List.any_eq_true]
        obtain ⟨row, hrow, hlen⟩ := hex
        exact ⟨row, List.mem_cons_of_mem _ hrow, by simpa using hlen⟩
      simp [load_table, h12, hany]

/-- Witness for C8: an 8-token first line fixes the 8-column schema and
a shorter later line still loads (padded), with no error. -/
theorem C8_witness :
    load_table [["2024-01-01", "A", "1", "2", "3", "4", "5", "6"], ["x"]] =
      .ok ([["2024-01-01", "A", "1", "2", "3", "4", "5", "6"], ["x"]].map loadRow8) :=
  ((C8_schema_first_line ["2024-01-01", "A", "1", "2", "3", "4", "5", "6"]
      [["x"]]).1 (by decide)).1 (by decide)

/-! ## Monthly aggregation facts (`app.py` lines 90–96) -/

/-- The first components of the monthly report rows are its keys. -/
theorem monthly_report_keys (rs : List Record) :
    (monthly_report rs).map Prod.fst = monthlyKeys rs := by
  unfold monthly_report
  rw [List.map_map]
  simp [Function.comp_def]

/-- Counting a conjunction is counting one predicate inside the other's
filter. -/
theorem countP_and_filter (l : List Record) (p q : Record → Bool) :
    (l.filter q).countP p = l.countP (fun r => q r && p r) := by
  rw [List.countP_filter]
  exact List.countP_congr (fun r _ => by rw [Bool.and_comm])

/-- C1: the monthly report has one row per (year, month) of the records
with a non-null timestamp; each reported value is 100 times the number
of good scans of the group over the number of all records of the group
(not-good and classification-failed records included in the
denominator); and the rows are in chronological (year, month) order. -/
theorem C1_monthly_report (rs : List Record) (k : Int × Int) (v : ℚ) :
    (k ∈ (monthly_report rs).map Prod.fst ↔
      ∃ r ∈ rs, ∃ t, r.timestamp = some t ∧ (t.year, t.month) = k) ∧
    ((k, v) ∈ monthly_report rs →
      v = 100 * (rs.countP (fun r => monthKey r == some k && recordGood rs r) : ℚ) /
        (rs.countP (fun r => monthKey r == some k) : ℚ)) ∧
    List.Sorted ymLE ((monthly_report rs).map Prod.fst) := by
  refine ⟨?_, ?_, ?_⟩
  · rw [monthly_report_keys]
    simp [monthlyKeys, List.mem_insertionSort, List.mem_dedup, List.mem_filterMap,
      monthKey, Option.map_eq_some']
  · intro hmem
    obtain ⟨k', hk', hpair⟩ := List.mem_map.mp hmem
    obtain ⟨hk, hv⟩ := Prod.mk.injEq .. ▸ hpair
    subst hk
    rw [← hv]
    unfold percentGood monthGroup
    rw [countP_and_filter]
    simp only [List.countP_eq_length_filter]
    ring
  · rw [monthly_report_keys]
    exact List.sorted_insertionSort ymLE _

/-! ## Daily aggregation facts (`app.py` lines 151–160) -/

/-- Membership in a key-value map built over a key list determines the
value. -/
theorem key_val_mem {α β : Type} {g : α → β} {keys : List α} {d : α} {v : β}
    (h : (d, v) ∈ keys.map (fun k => (k, g k))) : d ∈ keys ∧ v = g d := by
  obtain ⟨k, hk, hpair⟩ := List.mem_map.mp h
  obtain ⟨h1, h2⟩ := Prod.mk.injEq .. ▸ hpair
  subst h1
  exact ⟨hk, h2.symm⟩

/-- The date-range mask is true exactly on the records whose (non-null)
timestamp has its calendar date inside the inclusive range. -/
theorem inRange_eq_true (s e : Date) (r : Record) :
    inRange s e r = true ↔
      ∃ t, r.timestamp = some t ∧ dateLE s t.date ∧ dateLE t.date e := by
  unfold inRange
  cases h : r.timestamp <;> simp [h]

/-- The daily key list enumerates the dates occurring in a table. -/
theorem mem_dailyKeys (f : List Record) (d : Date) :
    d ∈ dailyKeys f ↔ ∃ r ∈ f, dateKey r = some d := by
  simp [dailyKeys, List.mem_insertionSort, List.mem_dedup, List.mem_filterMap]

/-- C7: the daily filter selects exactly the records whose calendar date
falls in the inclusive caller range (null timestamps never match); an
empty selection yields the explicit empty state and nothing else does;
and a produced table has one row per date of the selection, valued by
the good-scan percentage of that date's group, in chronological order. -/
theorem C7_daily_report (rs : List Record) (s e : Date) (d : Date) (v : ℚ)
    (rows : List (Date × ℚ)) :
    (∀ r, r ∈ df_filtered rs s e ↔
      r ∈ rs ∧ ∃ t, r.timestamp = some t ∧ dateLE s t.date ∧ dateLE t.date e) ∧
    (daily_report rs s e = none ↔ df_filtered rs s e = []) ∧
    (daily_report rs s e = some rows →
      (d ∈ rows.map Prod.fst ↔ ∃ r ∈ df_filtered rs s e, dateKey r = some d) ∧
      ((d, v) ∈ rows →
        v = 100 * ((df_filtered rs s e).countP
            (fun r => dateKey r == some d && recordGood rs r) : ℚ) /
          ((df_filtered rs s e).countP (fun r => dateKey r == some d) : ℚ)) ∧
      List.Sorted dateLE (rows.map Prod.fst)) := by
  refine ⟨?_, ?_, ?_⟩
  · intro r
    rw [df_filtered, List.mem_filter, inRange_eq_true]
  · by_cases hf : df_filtered rs s e = [] <;> simp [daily_report, hf]
  · intro hrep
    by_cases hf : df_filtered rs s e = []
    · simp [daily_report, hf] at hrep
    · simp only [daily_report, if_neg hf, Option.some.injEq] at hrep
      subst hrep
      refine ⟨?_, ?_, ?_⟩
      · rw [show ((dailyKeys (df_filtered rs s e)).map
            (fun k => (k, percentGood rs (dateGroup (df_filtered rs s e) k)))).map Prod.fst =
            dailyKeys (df_filtered rs s e) by rw [List.map_map]; simp [Function.comp_def]]
        exact mem_dailyKeys _ d
      · intro hdv
        obtain ⟨-, hv⟩ := key_val_mem hdv
        rw [hv]
        unfold percentGood dateGroup
        rw [countP_and_filter]
        simp only [List.countP_eq_length_filter]
        ring
      · rw [show ((dailyKeys (df_filtered rs s e)).map
            (fun k => (k, percentGood rs (dateGroup (df_filtered rs s e) k)))).map Prod.fst =
            dailyKeys (df_filtered rs s e) by rw [List.map_map]; simp [Function.comp_def]]
        exact List.sorted_insertionSort dateLE _

/-! ## Range facts for the round-trip claim -/

/-- `tsLE` is transitive. -/
theorem tsLE_trans {a b c : Timestamp} (h1 : tsLE a b) (h2 : tsLE b c) :
    tsLE a c := by
  unfold tsLE at *
  omega

/-- `tsLE` is total. -/
theorem tsLE_total (a b : Timestamp) : tsLE a b ∨ tsLE b a := by
  unfold tsLE
  omega

/-- Taking the calendar date is monotone for the timestamp order. -/
theorem tsLE_date_mono (t u : Timestamp) (h : tsLE t u) :
    dateLE t.date u.date := by
  unfold tsLE at h
  unfold dateLE Timestamp.date
  dsimp only
  omega

/-- The running minimum of the fold is below its start and every element. -/
theorem foldl_tsMin_le (ts : List Timestamp) (a : Timestamp) :
    tsLE (ts.foldl (fun x y => if tsLE x y then x else y) a) a ∧
    ∀ u ∈ ts, tsLE (ts.foldl (fun x y => if tsLE x y then x else y) a) u := by
  induction ts generalizing a with
  | nil =>
    refine ⟨?_, by simp⟩
    rw [List.foldl_nil]
    unfold tsLE
    omega
  | cons b ts ih =>
    rw [List.foldl_cons]
    by_cases h : tsLE a b
    · rw [if_pos h]
      obtain ⟨h1, h2⟩ := ih a
      refine ⟨h1, fun u hu => ?_⟩
      rcases List.mem_cons.mp hu with rfl | hu
      · exact tsLE_trans h1 h
      · exact h2 u hu
    · rw [if_neg h]
      obtain ⟨h1, h2⟩ := ih b
      have hba : tsLE b a := (tsLE_total a b).resolve_left h
      refine ⟨tsLE_trans h1 hba, fun u hu => ?_⟩
      rcases List.mem_cons.mp hu with rfl | hu
      · exact h1
      · exact h2 u hu

/-- The running maximum of the fold is above its start and every element. -/
theorem foldl_tsMax_ge (ts : List Timestamp) (a : Timestamp) :
    tsLE a (ts.foldl (fun x y => if tsLE y x then x else y) a) ∧
    ∀ u ∈ ts, tsLE u (ts.foldl (fun x y => if tsLE y x then x else y) a) := by
  induction ts generalizing a with
  | nil =>
    refine ⟨?_, by simp⟩
    rw [List.foldl_nil]
    unfold tsLE
    omega
  | cons b ts ih =>
    rw [List.foldl_cons]
    by_cases h : tsLE b a
    · rw [if_pos h]
      obtain ⟨h1, h2⟩ := ih a
      refine ⟨h1, fun u hu => ?_⟩
      rcases List.mem_cons.mp hu with rfl | hu
      · exact tsLE_trans h h1
      · exact h2 u hu
    · rw [if_neg h]
      obtain ⟨h1, h2⟩ := ih b
      have hab : tsLE a b := (tsLE_total b a).resolve_left h
      refine ⟨tsLE_trans hab h1, fun u hu => ?_⟩
      rcases List.mem_cons.mp hu with rfl | hu
      · exact h1
      · exact h2 u hu

/-- Every record's date is bounded below by the observed minimum date. -/
theorem min_date_le (rs : List Record) (m : Date)
    (hm : min_date rs = some m) :
    ∀ r ∈ rs, ∀ t, r.timestamp = some t → dateLE m t.date := by
  intro r hr t ht
  unfold min_date at hm
  obtain ⟨t0, ht0, hdate⟩ := Option.map_eq_some'.mp hm
  have htl : t ∈ rs.filterMap Record.timestamp :=
    List.mem_filterMap.mpr ⟨r, hr, ht⟩
  cases hl : rs.filterMap Record.timestamp with
  | nil =>
    rw [hl] at htl
    cases htl
  | cons t1 ts =>
    rw [hl] at ht0 htl
    unfold tsListMin at ht0
    rw [Option.some.injEq] at ht0
    subst ht0
    rw [← hdate]
    rcases List.mem_cons.mp htl with rfl | hu
    · exact tsLE_date_mono _ _ (foldl_tsMin_le ts t).1
    · exact tsLE_date_mono _ _ ((foldl_tsMin_le ts t1).2 t hu)

/-- Every record's date is bounded above by the observed maximum date. -/
theorem le_max_date (rs : List Record) (M : Date)
    (hM : max_date rs = some M) :
    ∀ r ∈ rs, ∀ t, r.timestamp = some t → dateLE t.date M := by
  intro r hr t ht
  unfold max_date at hM
  obtain ⟨t0, ht0, hdate⟩ := Option.map_eq_some'.mp hM
  have htl : t ∈ rs.filterMap Record.timestamp :=
    List.mem_filterMap.mpr ⟨r, hr, ht⟩
  cases hl : rs.filterMap Record.timestamp with
  | nil =>
    rw [hl] at htl
    cases htl
  | cons t1 ts =>
    rw [hl] at ht0 htl
    unfold tsListMax at ht0
    rw [Option.some.injEq] at ht0
    subst ht0
    rw [← hdate]
    rcases List.mem_cons.mp htl with rfl | hu
    · exact tsLE_date_mono _ _ (foldl_tsMax_ge ts t).1
    · exact tsLE_date_mono _ _ ((foldl_tsMax_ge ts t1).2 t hu)

/-- When every record of date `d` passes the range mask, grouping the
filtered table at `d` is grouping the whole table at `d`. -/
theorem dateGroup_filtered (rs : List Record) (s e : Date) (d : Date)
    (h : ∀ r ∈ rs, dateKey r = some d → inRange s e r = true) :
    dateGroup (df_filtered rs s e) d =
      rs.filter (fun r => dateKey r == some d) := by
  unfold dateGroup df_filtered
  rw [List.filter_filter]
  apply List.filter_congr
  intro r hr
  by_cases hk : dateKey r = some d
  · simp [hk, h r hr hk]
  · simp [hk]

/-- C9: every daily bucket computed for a sub-range of the full observed
date range also appears, with the same percentage value, in the
full-range report; and no report carries two values for one date. -/
theorem C9_daily_subrange (rs : List Record) (s e m M : Date)
    (hm : min_date rs = some m) (hM : max_date rs = some M)
    (_hs : dateLE m s) (_he : dateLE e M)
    (subRows : List (Date × ℚ)) (hsub : daily_report rs s e = some subRows) :
    (∀ d v, (d, v) ∈ subRows →
      ∃ fullRows, daily_report rs m M = some fullRows ∧ (d, v) ∈ fullRows) ∧
    (∀ fullRows, daily_report rs m M = some fullRows →
      ∀ d v w, (d, v) ∈ fullRows → (d, w) ∈ fullRows → v = w) := by
  constructor
  · intro d v hdv
    by_cases hfs : df_filtered rs s e = []
    · simp [daily_report, hfs] at hsub
    simp only [daily_report, if_neg hfs, Option.some.injEq] at hsub
    subst hsub
    obtain ⟨hdkeys, hv⟩ := key_val_mem hdv
    obtain ⟨r0, hr0f, hr0d⟩ := (mem_dailyKeys _ d).mp hdkeys
    obtain ⟨hr0rs, hr0in⟩ := List.mem_filter.mp hr0f
    obtain ⟨t0, ht0, hs0, he0⟩ := (inRange_eq_true s e r0).mp hr0in
    have hd0 : t0.date = d := by
      unfold dateKey at hr0d
      rw [ht0] at hr0d
      simpa using hr0d
    have hsd : dateLE s d := hd0 ▸ hs0
    have hde : dateLE d e := hd0 ▸ he0
    have hin_se : ∀ r ∈ rs, dateKey r = some d → inRange s e r = true := by
      intro r hr hk
      obtain ⟨t, ht, htd⟩ := Option.map_eq_some'.mp hk
      exact (inRange_eq_true s e r).mpr ⟨t, ht, htd ▸ hsd, htd ▸ hde⟩
    have hin_mM : ∀ r ∈ rs, dateKey r = some d → inRange m M r = true := by
      intro r hr hk
      obtain ⟨t, ht, htd⟩ := Option.map_eq_some'.mp hk
      exact (inRange_eq_true m M r).mpr
        ⟨t, ht, min_date_le rs m hm r hr t ht, le_max_date rs M hM r hr t ht⟩
    have hr0full : r0 ∈ df_filtered rs m M :=
      List.mem_filter.mpr ⟨hr0rs, hin_mM r0 hr0rs hr0d⟩
    have hffull : df_filtered rs m M ≠ [] := List.ne_nil_of_mem hr0full
    refine ⟨(dailyKeys (df_filtered rs m M)).map
        (fun k => (k, percentGood rs (dateGroup (df_filtered rs m M) k))),
      by simp only [daily_report, if_neg hffull], ?_⟩
    apply List.mem_map.mpr
    refine ⟨d, (mem_dailyKeys _ d).mpr ⟨r0, hr0full, hr0d⟩, ?_⟩
    rw [dateGroup_filtered rs m M d hin_mM, hv,
      dateGroup_filtered rs s e d hin_se]
  · intro fullRows hfull d v w hdv hdw
    by_cases hff : df_filtered rs m M = []
    · simp [daily_report, hff] at hfull
    simp only [daily_report, if_neg hff, Option.some.injEq] at hfull
    subst hfull
    obtain ⟨-, hv⟩ := key_val_mem hdv
    obtain ⟨-, hw⟩ := key_val_mem hdw
    rw [hv, hw]

/-! ## Constant-weighting-factor degeneration -/

/-- Sum of a constant list. -/
theorem sum_of_const {l : List ℚ} {c : ℚ} (h : ∀ v ∈ l, v = c) :
    l.sum = c * l.length := by
  induction l with
  | nil => simp
  | cons x xs ih =>
    have hx := h x (List.mem_cons_self ..)
    rw [List.sum_cons, ih (fun v hv => h v (List.mem_cons_of_mem _ hv)), hx,
      List.length_cons]
    push_cast
    ring

/-- When every non-null weighting factor equals `c`, the mean is null or
exactly `c`. -/
theorem average_weighting_factor_const (rs : List Record) (c : ℚ)
    (h : ∀ r ∈ rs, r.weighting_factor = none ∨ r.weighting_factor = some c) :
    average_weighting_factor rs = none ∨ average_weighting_factor rs = some c := by
  unfold average_weighting_factor
  by_cases hv : rs.filterMap Record.weighting_factor = []
  · left
    simp [hv]
  · right
    rw [if_neg hv]
    have hall : ∀ v ∈ rs.filterMap Record.weighting_factor, v = c := by
      intro v hvm
      obtain ⟨r, hr, hrv⟩ := List.mem_filterMap.mp hvm
      rcases h r hr with h0 | h0 <;> rw [h0] at hrv
      · cases hrv
      · simpa using hrv.symm
    have hn : ((rs.filterMap Record.weighting_factor).length : ℚ) ≠ 0 := by
      have : rs.filterMap Record.weighting_factor ≠ [] := hv
      simpa [List.length_eq_zero] using
        fun h0 => this (List.length_eq_zero.mp h0)
    rw [sum_of_const hall, mul_div_assoc, div_self hn, mul_one]

/-- A group of records that all classify as not good reports zero. -/
theorem percentGood_zero (rs g : List Record)
    (hg : ∀ r ∈ g, recordGood rs r = false) :
    percentGood rs g = 0 := by
  unfold percentGood
  have h0 : g.countP (recordGood rs) = 0 := by
    rw [List.countP_eq_zero]
    intro r hr
    simp [hg r hr]
  rw [h0]
  simp

/-- C10: when every non-null weighting factor of a table has one common
value, the strict comparison against the mean fails everywhere: every
record (null or not) classifies as not good, and every monthly and
daily bucket reports exactly 0. -/
theorem C10_constant_wf_zero (rs : List Record) (c : ℚ) (k : Int × Int)
    (v : ℚ) (s e : Date) (d : Date) (w : ℚ) (rows : List (Date × ℚ))
    (h : ∀ r ∈ rs, r.weighting_factor = none ∨ r.weighting_factor = some c) :
    (∀ r ∈ rs, recordGood rs r = false) ∧
    ((k, v) ∈ monthly_report rs → v = 0) ∧
    (daily_report rs s e = some rows → (d, w) ∈ rows → w = 0) := by
  have hgood : ∀ r ∈ rs, recordGood rs r = false := by
    intro r hr
    unfold recordGood
    rcases h r hr with h0 | h0 <;> rw [h0]
    · cases average_weighting_factor rs <;> rfl
    · rcases average_weighting_factor_const rs c h with ha | ha <;> rw [ha]
      · rfl
      · simp [good_scan]
  refine ⟨hgood, ?_, ?_⟩
  · intro hkv
    obtain ⟨-, hv⟩ := key_val_mem hkv
    rw [hv]
    apply percentGood_zero
    intro r hr
    exact hgood r (List.mem_filter.mp hr).1
  · intro hrep hdw
    by_cases hf : df_filtered rs s e = []
    · simp [daily_report, hf] at hrep
    simp only [daily_report, if_neg hf, Option.some.injEq] at hrep
    subst hrep
    obtain ⟨-, hw⟩ := key_val_mem hdw
    rw [hw]
    apply percentGood_zero
    intro r hr
    exact hgood r (List.mem_filter.mp (List.mem_filter.mp hr).1).1

/-! ## Witnesses on the concrete sample tables -/

/-- Witness for C1 on the three-record January 2024 sample table. -/
theorem C1_witness :
    ((2024, 1), percentGood sampleTable (monthGroup sampleTable (2024, 1))) ∈
      monthly_report sampleTable ∧
    percentGood sampleTable (monthGroup sampleTable (2024, 1)) =
      100 * ((sampleTable.countP
          (fun r => monthKey r == some (2024, 1) && recordGood sampleTable r)) : ℚ) /
        ((sampleTable.countP (fun r => monthKey r == some (2024, 1))) : ℚ) := by
  have hkeys : monthlyKeys sampleTable = [(2024, 1)] := by decide
  have hmem : ((2024, 1), percentGood sampleTable (monthGroup sampleTable (2024, 1))) ∈
      monthly_report sampleTable := by
    unfold monthly_report
    rw [hkeys]
    simp only [List.map_cons, List.map_nil]
    exact List.mem_singleton.mpr rfl
  exact ⟨hmem, (C1_monthly_report sampleTable (2024, 1) _).2.1 hmem⟩

/-- Witness for C7 on the sample table over the one-day range
2024-01-01 to 2024-01-01. -/
theorem C7_witness :
    percentGood sampleTable
        (dateGroup (df_filtered sampleTable ⟨2024, 1, 1⟩ ⟨2024, 1, 1⟩) ⟨2024, 1, 1⟩) =
      100 * ((df_filtered sampleTable ⟨2024, 1, 1⟩ ⟨2024, 1, 1⟩).countP
          (fun r => dateKey r == some ⟨2024, 1, 1⟩ &&
            recordGood sampleTable r) : ℚ) /
        ((df_filtered sampleTable ⟨2024, 1, 1⟩ ⟨2024, 1, 1⟩).countP
          (fun r => dateKey r == some ⟨2024, 1, 1⟩) : ℚ) := by
  have hf : df_filtered sampleTable ⟨2024, 1, 1⟩ ⟨2024, 1, 1⟩ ≠ [] := by decide
  have hkeys : dailyKeys (df_filtered sampleTable ⟨2024, 1, 1⟩ ⟨2024, 1, 1⟩) =
      [⟨2024, 1, 1⟩] := by decide
  have hrep : daily_report sampleTable ⟨2024, 1, 1⟩ ⟨2024, 1, 1⟩ =
      some [(⟨2024, 1, 1⟩, percentGood sampleTable
        (dateGroup (df_filtered sampleTable ⟨2024, 1, 1⟩ ⟨2024, 1, 1⟩)
          ⟨2024, 1, 1⟩))] := by
    simp only [daily_report, if_neg hf, hkeys, List.map_cons, List.map_nil]
  exact ((C7_daily_report sampleTable ⟨2024, 1, 1⟩ ⟨2024, 1, 1⟩ ⟨2024, 1, 1⟩ _ _).2.2
    hrep).2.1 (List.mem_singleton.mpr rfl)

/-- Witness for C9: the one-day sub-range 2024-01-02 against the full
observed range 2024-01-01 to 2024-01-03 of the sample table. -/
theorem C9_witness :
    ∃ fullRows,
      daily_report sampleTable ⟨2024, 1, 1⟩ ⟨2024, 1, 3⟩ = some fullRows ∧
      (⟨2024, 1, 2⟩, percentGood sampleTable
        (dateGroup (df_filtered sampleTable ⟨2024, 1, 2⟩ ⟨2024, 1, 2⟩)
          ⟨2024, 1, 2⟩)) ∈ fullRows := by
  have hf : df_filtered sampleTable ⟨2024, 1, 2⟩ ⟨2024, 1, 2⟩ ≠ [] := by decide
  have hkeys : dailyKeys (df_filtered sampleTable ⟨2024, 1, 2⟩ ⟨2024, 1, 2⟩) =
      [⟨2024, 1, 2⟩] := by decide
  have hsub : daily_report sampleTable ⟨2024, 1, 2⟩ ⟨2024, 1, 2⟩ =
      some [(⟨2024, 1, 2⟩, percentGood sampleTable
        (dateGroup (df_filtered sampleTable ⟨2024, 1, 2⟩ ⟨2024, 1, 2⟩)
          ⟨2024, 1, 2⟩))] := by
    simp only [daily_report, if_neg hf, hkeys, List.map_cons, List.map_nil]
  exact (C9_daily_subrange sampleTable ⟨2024, 1, 2⟩ ⟨2024, 1, 2⟩ ⟨2024, 1, 1⟩
    ⟨2024, 1, 3⟩ (by decide) (by decide) (by decide) (by decide) _ hsub).1
    ⟨2024, 1, 2⟩ _ (List.mem_singleton.mpr rfl)

/-- Witness for C10 on a table whose non-null weighting factors are all
5: the non-null record is still not good, and the January 2024 bucket
reports 0. -/
theorem C10_witness :
    recordGood constTable ⟨some ⟨2024, 1, 1, 0⟩, some 5⟩ = false ∧
    percentGood constTable (monthGroup constTable (2024, 1)) = 0 := by
  have h : ∀ r ∈ constTable,
      r.weighting_factor = none ∨ r.weighting_factor = some 5 := by decide
  have hkeys : monthlyKeys constTable = [(2024, 1)] := by decide
  have hmem : ((2024, 1), percentGood constTable (monthGroup constTable (2024, 1))) ∈
      monthly_report constTable := by
    unfold monthly_report
    rw [hkeys]
    simp only [List.map_cons, List.map_nil]
    exact List.mem_singleton.mpr rfl
  exact ⟨(C10_constant_wf_zero constTable 5 (2024, 1)
      (percentGood constTable (monthGroup constTable (2024, 1))) ⟨2024, 1, 1⟩
      ⟨2024, 1, 1⟩ ⟨2024, 1, 1⟩ 0 [] h).1 ⟨some ⟨2024, 1, 1, 0⟩, some 5⟩ (by decide),
    (C10_constant_wf_zero constTable 5 (2024, 1)
      (percentGood constTable (monthGroup constTable (2024, 1))) ⟨2024, 1, 1⟩
      ⟨2024, 1, 1⟩ ⟨2024, 1, 1⟩ 0 [] h).2.1 hmem⟩
